import Mathlib

/-!
Verification of the SubCreater subtitle generator core.

This file shallowly embeds the core of the repository —
src/core/parser.py (the stateful line-pairing parser),
src/core/renderer.py (layout and effect compositing) and the settings
merge of src/main.py — as executable Lean definitions, and proves the
spec claims about them.  Lines and tags are lists of characters, colors
are lists of integers (mirroring Python tuples of arbitrary length),
and Python float arithmetic on the small integer inputs involved is
modelled exactly with rationals.
-/

/-- Python whitespace characters recognised by str.strip(). -/
def isPySpace (c : Char) : Bool :=
  c == ' ' || c == '\t' || c == '\n' || c == '\r' || c == '\x0b' || c == '\x0c'

/-- Python str.strip(): drop whitespace at both ends of the line. -/
def pyStrip (s : List Char) : List Char :=
  ((s.dropWhile isPySpace).reverse.dropWhile isPySpace).reverse

/-- Result of parse_subtitle_line: the tuple
    (base_tag, full_tag, text, is_translation). -/
structure ParsedLine where
  base_tag : List Char
  full_tag : List Char
  text : List Char
  is_translation : Bool
deriving DecidableEq

/-- full_tag.endswith("ch"). -/
def endsWithCh (tag : List Char) : Bool :=
  match tag.reverse with
  | 'h' :: 'c' :: _ => true
  | _ => false

/-- src/core/parser.py parse_subtitle_line: strip the line, match the
    anchored pattern of an opening bracket, a nonempty run of
    non-bracket characters, a closing bracket and the rest of the line,
    strip the text and reject it when empty, then classify the tag by
    its two-character suffix.  full_tag[:-2] is the reversal, drop of
    two characters and reversal back of the tag. -/
def parse_subtitle_line (line : List Char) : Option ParsedLine :=
  match pyStrip line with
  | '[' :: rest =>
    (match rest.dropWhile (fun c => c != ']') with
     | ']' :: af =>
       let tag := rest.takeWhile (fun c => c != ']')
       if tag = [] then none
       else
         let text := pyStrip af
         if text = [] then none
         else
           let isTr := endsWithCh tag
           some ⟨if isTr then (tag.reverse.drop 2).reverse else tag, tag, text, isTr⟩
     | _ => none)
  | _ => none

/-- One dictionary appended by parse_subtitle_file to its result list. -/
structure SubEntry where
  id : List Char
  full_tag_original : List Char
  original_text : List Char
  translated_text : Option (List Char)
  full_tag_translation : Option (List Char)
deriving DecidableEq

/-- Loop state of parse_subtitle_file: the accumulated result list, the
    three pending-original variables, the emitted orphan warnings
    (line number from enumerate(f, 1), plus the stripped line) and the
    current line number. -/
structure ParserState where
  subtitles : List SubEntry
  last_base_tag : Option (List Char)
  temp_original_text : Option (List Char)
  temp_full_tag_original : Option (List Char)
  orphans : List (Nat × List Char)
  lineNo : Nat
deriving DecidableEq

/-- Python truthiness of an Optional[str]: not None and not empty. -/
def truthyStr : Option (List Char) → Bool
  | none => false
  | some s => !s.isEmpty

/-- One iteration of the parse_subtitle_file loop body on one line. -/
def processLine (st : ParserState) (line : List Char) : ParserState :=
  let st' :=
    match parse_subtitle_line line with
    | none =>
      if truthyStr st.temp_original_text && truthyStr st.last_base_tag &&
         truthyStr st.temp_full_tag_original then
        { st with
          subtitles := st.subtitles ++
            [({ id := st.last_base_tag.getD [],
                full_tag_original := st.temp_full_tag_original.getD [],
                original_text := st.temp_original_text.getD [],
                translated_text := none, full_tag_translation := none } : SubEntry)],
          temp_original_text := none, last_base_tag := none,
          temp_full_tag_original := none }
      else st
    | some p =>
      if p.is_translation then
        if truthyStr st.temp_original_text &&
           (st.last_base_tag == some p.base_tag) &&
           truthyStr st.temp_full_tag_original then
          { st with
            subtitles := st.subtitles ++
              [({ id := p.base_tag,
                  full_tag_original := st.temp_full_tag_original.getD [],
                  original_text := st.temp_original_text.getD [],
                  translated_text := some p.text,
                  full_tag_translation := some p.full_tag } : SubEntry)],
            temp_original_text := none, last_base_tag := none,
            temp_full_tag_original := none }
        else
          { st with orphans := st.orphans ++ [(st.lineNo, pyStrip line)] }
      else
        let flushed :=
          if truthyStr st.temp_original_text && truthyStr st.last_base_tag &&
             truthyStr st.temp_full_tag_original then
            { st with
              subtitles := st.subtitles ++
                [({ id := st.last_base_tag.getD [],
                    full_tag_original := st.temp_full_tag_original.getD [],
                    original_text := st.temp_original_text.getD [],
                    translated_text := none, full_tag_translation := none } : SubEntry)] }
          else st
        { flushed with
          temp_original_text := some p.text, last_base_tag := some p.base_tag,
          temp_full_tag_original := some p.full_tag }
  { st' with lineNo := st.lineNo + 1 }

/-- The state at the top of the loop: empty output, empty pending slot,
    no warnings, about to read line 1. -/
def initState : ParserState := ⟨[], none, none, none, [], 1⟩

/-- The flush after the loop: a pending original without translation is
    appended as a standalone entry. -/
def finalFlush (st : ParserState) : ParserState :=
  if truthyStr st.temp_original_text && truthyStr st.last_base_tag &&
     truthyStr st.temp_full_tag_original then
    { st with
      subtitles := st.subtitles ++
        [({ id := st.last_base_tag.getD [],
            full_tag_original := st.temp_full_tag_original.getD [],
            original_text := st.temp_original_text.getD [],
            translated_text := none, full_tag_translation := none } : SubEntry)] }
  else st

/-- Folding the loop body over the lines of the file. -/
def runLines (ls : List (List Char)) : ParserState := ls.foldl processLine initState

/-- src/core/parser.py parse_subtitle_file on the list of lines of an
    accessible file: run the loop, then flush the pending original. -/
def parse_subtitle_file (ls : List (List Char)) : List SubEntry :=
  (finalFlush (runLines ls)).subtitles

/-- The standalone entry flushed for a pending original without a
    translation. -/
def standaloneEntry (T F X : List Char) : SubEntry :=
  { id := T, full_tag_original := F, original_text := X,
    translated_text := none, full_tag_translation := none }

/-- The pending slot holds the original text X under base tag T and
    full tag F, all three Python-truthy. -/
def pendingHolds (st : ParserState) (T F X : List Char) : Prop :=
  st.temp_original_text = some X ∧ st.last_base_tag = some T ∧
  st.temp_full_tag_original = some F ∧ X ≠ [] ∧ T ≠ [] ∧ F ≠ []

/-- Invariant of the parser loop: the pending base tag is never the
    empty string, the pending full tag never carries the translation
    suffix, and no emitted entry mentions the bare tag "ch". -/
def goodState (st : ParserState) : Prop :=
  st.last_base_tag ≠ some [] ∧
  (∀ F, st.temp_full_tag_original = some F → endsWithCh F = false) ∧
  (∀ e ∈ st.subtitles, e.full_tag_original ≠ ['c', 'h'] ∧
     ∀ G, e.full_tag_translation = some G → G ≠ ['c', 'h'])

/-- Python int() on the exact rational value of a float: truncation
    toward zero. -/
def pyInt (q : ℚ) : Int := if 0 ≤ q then ⌊q⌋ else ⌈q⌉

/-- Python range(a, b) over integers. -/
def pyRange (a b : Int) : List Int :=
  (List.range (b - a).toNat).map (fun k : Nat => a + (k : Int))

/-- The qualifying offsets of the outline double loop in
    draw_text_with_effects: dx and dy each run over
    range(-outline_w, outline_w + 1) and the stamp happens when the
    offset is on the outer ring or strictly inside with
    dx*dx + dy*dy >= (outline_w - 1)*(outline_w - 1). -/
def outlineOffsets (w : Int) : List (Int × Int) :=
  (pyRange (-w) (w + 1)).flatMap (fun dx =>
    (pyRange (-w) (w + 1)).filterMap (fun dy =>
      if |dx| = w ∨ |dy| = w ∨ (|dx| < w ∧ |dy| < w ∧ (w - 1) * (w - 1) ≤ dx * dx + dy * dy)
      then some (dx, dy) else none))

/-- The per-role effects dictionary of DEFAULT_SETTINGS, with the keys
    draw_text_with_effects reads.  Colors are integer lists so that a
    3-channel and a 4-channel tuple are distinguishable. -/
structure Effects where
  outline_on : Bool
  outline_width : Int
  outline_color : List Int
  shadow_on : Bool
  shadow_offset_x : Int
  shadow_offset_y : Int
  shadow_color : List Int
  gradient_on : Bool
  gradient_color_start : List Int
  gradient_color_end : List Int
deriving DecidableEq

/-- A text bounding box as returned by draw.textbbox((0,0), text, font):
    left, top, right, bottom relative to the nominal pen origin. -/
structure BBox where
  left : Int
  top : Int
  right : Int
  bottom : Int
deriving DecidableEq

/-- A primitive canvas operation issued by draw_text_with_effects:
    a glyph-run stamp (draw.text) with a position and color, or the
    masked paste of the gradient image with its destination box and
    scanline colors. -/
inductive DrawOp where
  | text (pos : Int × Int) (s : List Char) (color : List Int)
  | pasteGradient (box : Int × Int × Int × Int) (rows : List (List Int))
deriving DecidableEq

/-- The compositor's alpha defaulting: a length-3 color gets the given
    alpha appended, anything else is passed through. -/
def defaultAlpha (c : List Int) (a : Int) : List Int :=
  if c.length = 3 then c ++ [a] else c

/-- The outline layer of draw_text_with_effects: when enabled with
    positive width, stamp the glyph run in the (alpha-defaulted)
    outline color at every qualifying offset. -/
def outlineLayerOps (pos : Int × Int) (s : List Char) (e : Effects) : List DrawOp :=
  if e.outline_on = true ∧ 0 < e.outline_width then
    (outlineOffsets e.outline_width).map (fun d =>
      DrawOp.text (pos.1 + d.1, pos.2 + d.2) s (defaultAlpha e.outline_color 255))
  else []

/-- The shadow layer: when enabled and some offset is nonzero, one
    stamp at the offset position in the (alpha-128-defaulted) shadow
    color. -/
def shadowLayerOps (pos : Int × Int) (s : List Char) (e : Effects) : List DrawOp :=
  if e.shadow_on = true then
    if e.shadow_offset_x ≠ 0 ∨ e.shadow_offset_y ≠ 0 then
      [DrawOp.text (pos.1 + e.shadow_offset_x, pos.2 + e.shadow_offset_y) s
        (defaultAlpha e.shadow_color 128)]
    else []
  else []

/-- start*(1 - t) + end*t on one color component, exactly. -/
def lerpComp (a b : Int) (t : ℚ) : ℚ := (a : ℚ) * (1 - t) + (b : ℚ) * t

/-- One scanline color of the gradient image: the loop body
    ratio = i / max(1, text_height - 1) followed by componentwise
    int(start*(1-ratio) + end*ratio) over R, G, B, A. -/
def gradientRowColor (cs ce : List Int) (th i : Int) : List Int :=
  let t : ℚ := (i : ℚ) / ((max 1 (th - 1) : Int) : ℚ)
  [pyInt (lerpComp (cs.getD 0 0) (ce.getD 0 0) t),
   pyInt (lerpComp (cs.getD 1 0) (ce.getD 1 0) t),
   pyInt (lerpComp (cs.getD 2 0) (ce.getD 2 0) t),
   pyInt (lerpComp (cs.getD 3 0) (ce.getD 3 0) t)]

/-- All scanlines of the gradient image, i over range(text_height). -/
def gradientRows (cs ce : List Int) (th : Int) : List (List Int) :=
  (pyRange 0 th).map (gradientRowColor cs ce th)

/-- The fill layer: gradient path (alpha-default the two colors,
    measure the ink box, return early when it is empty, else paste the
    gradient rows at the ink-offset-corrected box) or one solid stamp
    in the role color. -/
def fillLayerOps (pos : Int × Int) (s : List Char) (bb : BBox) (fill : List Int)
    (e : Effects) : List DrawOp :=
  if e.gradient_on = true then
    let cs := defaultAlpha e.gradient_color_start 255
    let ce := defaultAlpha e.gradient_color_end 255
    let tw := bb.right - bb.left
    let th := bb.bottom - bb.top
    if tw ≤ 0 ∨ th ≤ 0 then []
    else
      [DrawOp.pasteGradient
        (pos.1 + bb.left, pos.2 + bb.top, pos.1 + bb.left + tw, pos.2 + bb.top + th)
        (gradientRows cs ce th)]
  else [DrawOp.text pos s fill]

/-- src/core/renderer.py draw_text_with_effects: the outline layer,
    then the shadow layer, then the fill layer, in source order.
    The text bounding box bb stands for the measurement the font back
    end returns for s. -/
def draw_text_with_effects (pos : Int × Int) (s : List Char) (bb : BBox)
    (fill : List Int) (e : Effects) : List DrawOp :=
  outlineLayerOps pos s e ++ shadowLayerOps pos s e ++ fillLayerOps pos s bb fill e

/-- Modelled from the spec: the external rasterizer treats a color
    given with 3 channels as fully opaque, so the RGBA it actually
    composites is the color with alpha 255 appended; a 4-channel color
    is used as given. -/
def pilEffColor (c : List Int) : List Int := if c.length = 3 then c ++ [255] else c

/-- The RGBA a stamp op actually puts on the canvas, after the back
    end's color handling. -/
def opStampColor : DrawOp → List Int
  | DrawOp.text _ _ c => pilEffColor c
  | DrawOp.pasteGradient _ _ => []

/-- Membership in a half-open pixel rectangle. -/
def inRect (l t r b : Int) (p : Int × Int) : Prop :=
  l ≤ p.1 ∧ p.1 < r ∧ t ≤ p.2 ∧ p.2 < b

/-- Modelled from the spec: a glyph-run stamp affects only pixels
    inside its measured ink box placed at the stamp position (an empty
    glyph run covers nothing), and a paste affects only its destination
    box.  This bounds the canvas pixels an operation may touch. -/
def opCovers (bb : BBox) (op : DrawOp) (p : Int × Int) : Prop :=
  match op with
  | DrawOp.text q _ _ =>
    inRect (q.1 + bb.left) (q.2 + bb.top) (q.1 + bb.right) (q.2 + bb.bottom) p
  | DrawOp.pasteGradient (x1, y1, x2, y2) _ => inRect x1 y1 x2 y2 p

/-- render_subtitle_image vertical placement: Pillow top edge =
    image height - user bottom edge - text ink height. -/
def computePilY (imgHeight userYBottom inkH : Int) : Int :=
  imgHeight - userYBottom - inkH

/-- render_subtitle_image horizontal placement by text_align, with the
    unknown-mode fallback to the left formula. -/
def computePilX (alignMode : String) (userX inkW : Int) : ℚ :=
  if alignMode = "left" then (userX : ℚ)
  else if alignMode = "center" then (userX : ℚ) - (inkW : ℚ) / 2
  else if alignMode = "right" then (userX : ℚ) - (inkW : ℚ)
  else (userX : ℚ)

/-- The int()-converted draw position handed to draw_text_with_effects
    for the original role. -/
def origDrawPos (imgHeight : Int) (alignMode : String) (userX userY inkW inkH : Int) :
    Int × Int :=
  (pyInt (computePilX alignMode userX inkW),
   pyInt ((computePilY imgHeight userY inkH : Int) : ℚ))

/-- The int()-converted draw position for the translation role; the
    source duplicates the same formulas with the translation inputs. -/
def transDrawPos (imgHeight : Int) (alignMode : String) (userX userY inkW inkH : Int) :
    Int × Int :=
  (pyInt (computePilX alignMode userX inkW),
   pyInt ((computePilY imgHeight userY inkH : Int) : ℚ))

/-- A Python value as stored in the settings dictionaries: scalars,
    color tuples, or a reference to another dictionary on the heap. -/
inductive PyVal where
  | vInt (n : Int)
  | vStr (s : String)
  | vBool (b : Bool)
  | vTup (l : List Int)
  | vRef (a : Nat)
deriving DecidableEq

/-- A Python dict as an insertion-ordered association list. -/
abbrev PyDict := List (String × PyVal)

/-- The heap: dictionary objects indexed by address. -/
abbrev Store := List PyDict

def dictGet (d : PyDict) (k : String) : Option PyVal :=
  match d with
  | [] => none
  | (k', v) :: rest => if k' = k then some v else dictGet rest k

/-- Python dict assignment: overwrite in place or append a new key. -/
def dictSet (d : PyDict) (k : String) (v : PyVal) : PyDict :=
  match d with
  | [] => [(k, v)]
  | (k', v') :: rest => if k' = k then (k', v) :: rest else (k', v') :: dictSet rest k v

/-- d.update(other): assign every key of other into d, in order. -/
def dictUpdate (d other : PyDict) : PyDict :=
  other.foldl (fun acc kv => dictSet acc kv.1 kv.2) d

/-- del d[k]. -/
def dictDel (d : PyDict) (k : String) : PyDict := d.filter (fun kv => kv.1 != k)

def storeGet (s : Store) (a : Nat) : PyDict := s.getD a []

def storeSet (s : Store) (a : Nat) (d : PyDict) : Store := s.set a d

/-- DEFAULT_SETTINGS["effects_original"] from src/core/renderer.py. -/
def defaultEffectsOriginalDict : PyDict :=
  [("shadow_on", PyVal.vBool true), ("shadow_offset_x", PyVal.vInt 3),
   ("shadow_offset_y", PyVal.vInt 3), ("shadow_color", PyVal.vTup [0, 0, 0, 128]),
   ("outline_on", PyVal.vBool true), ("outline_width", PyVal.vInt 2),
   ("outline_color", PyVal.vTup [0, 0, 0, 255]), ("gradient_on", PyVal.vBool false),
   ("gradient_color_start", PyVal.vTup [255, 105, 180, 255]),
   ("gradient_color_end", PyVal.vTup [255, 255, 255, 255]),
   ("gradient_direction", PyVal.vStr ("vertical"))]

/-- DEFAULT_SETTINGS["effects_translation"] from src/core/renderer.py. -/
def defaultEffectsTranslationDict : PyDict :=
  [("shadow_on", PyVal.vBool true), ("shadow_offset_x", PyVal.vInt 2),
   ("shadow_offset_y", PyVal.vInt 2), ("shadow_color", PyVal.vTup [0, 0, 0, 128]),
   ("outline_on", PyVal.vBool true), ("outline_width", PyVal.vInt 1),
   ("outline_color", PyVal.vTup [0, 0, 0, 255]), ("gradient_on", PyVal.vBool false),
   ("gradient_color_start", PyVal.vTup [200, 200, 200, 255]),
   ("gradient_color_end", PyVal.vTup [250, 250, 250, 255]),
   ("gradient_direction", PyVal.vStr ("vertical"))]

/-- The top-level DEFAULT_SETTINGS dict; its two effects values are
    references to the nested dict objects at heap addresses 0 and 1. -/
def defaultTopDict : PyDict :=
  [("resolution", PyVal.vStr ("1080p")),
   ("font_path_original", PyVal.vStr ("arial.ttf")),
   ("font_size_original", PyVal.vInt 60),
   ("font_color_original", PyVal.vTup [255, 255, 0, 255]),
   ("font_path_translation", PyVal.vStr ("arial.ttf")),
   ("font_size_translation", PyVal.vInt 40),
   ("font_color_translation", PyVal.vTup [220, 220, 220, 255]),
   ("text_align", PyVal.vStr ("center")),
   ("position_y_offset", PyVal.vInt (-100)),
   ("line_spacing", PyVal.vInt 10),
   ("custom_x_original", PyVal.vInt 640),
   ("custom_y_original", PyVal.vInt 800),
   ("custom_x_translation", PyVal.vInt 640),
   ("custom_y_translation", PyVal.vInt 880),
   ("output_directory", PyVal.vStr ("output_images")),
   ("effects_original", PyVal.vRef 0),
   ("effects_translation", PyVal.vRef 1)]

/-- The interpreter heap after module load: the two nested effects
    dicts at addresses 0 and 1 and DEFAULT_SETTINGS itself at 2. -/
def defaultStore : Store :=
  [defaultEffectsOriginalDict, defaultEffectsTranslationDict, defaultTopDict]

/-- One deep-merge step of process_subtitles: when key k maps to a dict
    in both custom_settings (address ca) and the shallow copy rs,
    update the dict rs[k] refers to in place with the custom dict's
    entries, then delete k from the custom dict. -/
def mergeEffectsKey (s : Store) (ca : Nat) (rs : PyDict) (k : String) : Store :=
  match dictGet (storeGet s ca) k, dictGet rs k with
  | some (PyVal.vRef cea), some (PyVal.vRef rea) =>
    let s1 := storeSet s rea (dictUpdate (storeGet s rea) (storeGet s cea))
    storeSet s1 ca (dictDel (storeGet s1 ca) k)
  | _, _ => s

/-- The settings preparation of src/main.py process_subtitles, lines
    35-44: render_settings = DEFAULT_SETTINGS.copy() (a shallow copy,
    sharing the nested effects dict objects), then if custom_settings
    is truthy, the two deep-merge steps followed by
    render_settings.update(custom_settings).  Returns the heap and the
    address of render_settings. -/
def processSubtitlesSettings (s : Store) (defaultAddr : Nat) (customAddr : Option Nat) :
    Store × Nat :=
  let rs := storeGet s defaultAddr
  let rsAddr := s.length
  let s1 := s ++ [rs]
  match customAddr with
  | none => (s1, rsAddr)
  | some ca =>
    if storeGet s1 ca = [] then (s1, rsAddr)
    else
      let s2 := mergeEffectsKey s1 ca rs ("effects_original")
      let s3 := mergeEffectsKey s2 ca rs ("effects_translation")
      let s4 := storeSet s3 rsAddr (dictUpdate (storeGet s3 rsAddr) (storeGet s3 ca))
      (s4, rsAddr)

/-- The settings preparation of render_subtitle_image, lines 213-215:
    current_settings = DEFAULT_SETTINGS.copy() then
    current_settings.update(settings) when settings is truthy; only the
    fresh copy is written. -/
def renderImageSettings (s : Store) (defaultAddr : Nat) (settingsAddr : Option Nat) :
    Store × Nat :=
  let cur := storeGet s defaultAddr
  let curAddr := s.length
  let s1 := s ++ [cur]
  match settingsAddr with
  | none => (s1, curAddr)
  | some sa =>
    if storeGet s1 sa = [] then (s1, curAddr)
    else (storeSet s1 curAddr (dictUpdate (storeGet s1 curAddr) (storeGet s1 sa)), curAddr)

theorem parse_line_shape {line : List Char} {p : ParsedLine}
    (h : parse_subtitle_line line = some p) :
    p.text ≠ [] ∧ p.full_tag ≠ [] ∧ p.is_translation = endsWithCh p.full_tag ∧
    (p.is_translation = false → p.base_tag = p.full_tag) ∧
    (p.is_translation = true → p.base_tag = (p.full_tag.reverse.drop 2).reverse) := by
  unfold parse_subtitle_line at h
  split at h
  · split at h
    · dsimp only at h
      split at h
      · exact absurd h (by simp)
      · split at h
        · exact absurd h (by simp)
        · rename_i rest hrest af haf htag htext
          injection h with h
          subst h
          refine ⟨htext, htag, rfl, ?_, ?_⟩ <;> intro hc <;> simp at hc <;> simp [hc]
    · exact absurd h (by simp)
  · exact absurd h (by simp)

theorem truthy_some {X : List Char} (h : X ≠ []) : truthyStr (some X) = true := by
  cases X with
  | nil => exact absurd rfl h
  | cons a l => rfl

theorem truthy_iff {o : Option (List Char)} :
    truthyStr o = true ↔ ∃ s, o = some s ∧ s ≠ [] := by
  cases o with
  | none => simp [truthyStr]
  | some s => cases s <;> simp [truthyStr]

theorem processLine_pair {s : ParserState} {l : List Char} {T F X : List Char}
    {p : ParsedLine}
    (ho : s.temp_original_text = some X) (hb : s.last_base_tag = some T)
    (hf : s.temp_full_tag_original = some F) (hX : X ≠ []) (hF : F ≠ [])
    (hp : parse_subtitle_line l = some p) (htr : p.is_translation = true)
    (hbase : p.base_tag = T) :
    processLine s l =
      { s with
        subtitles := s.subtitles ++
          [{ id := T, full_tag_original := F, original_text := X,
             translated_text := some p.text, full_tag_translation := some p.full_tag }],
        temp_original_text := none, last_base_tag := none,
        temp_full_tag_original := none, lineNo := s.lineNo + 1 } := by
  simp [processLine, hp, htr, hbase, ho, hb, hf, truthy_some hX, truthy_some hF]

/-- C1: for a well-formed original line immediately followed by a
matching translation line, the parser emits exactly one entry for the
pair, with id and full_tag_original the original's tag, the two texts
in place, and full_tag_translation the ch-suffixed tag, and the
pending-original slot is cleared afterwards. -/
theorem claim_C1 (st : ParserState) (l1 l2 T X Y : List Char)
    (h1 : parse_subtitle_line l1 = some ⟨T, T, X, false⟩)
    (h2 : parse_subtitle_line l2 = some ⟨T, T ++ ['c', 'h'], Y, true⟩) :
    (processLine (processLine st l1) l2).subtitles =
      (processLine st l1).subtitles ++
        [{ id := T, full_tag_original := T, original_text := X,
           translated_text := some Y, full_tag_translation := some (T ++ ['c', 'h']) }] ∧
    (processLine (processLine st l1) l2).temp_original_text = none ∧
    (processLine (processLine st l1) l2).last_base_tag = none ∧
    (processLine (processLine st l1) l2).temp_full_tag_original = none ∧
    (processLine (processLine st l1) l2).orphans = (processLine st l1).orphans := by
  have hX : X ≠ [] := (parse_line_shape h1).1
  have hT : T ≠ [] := (parse_line_shape h1).2.1
  have ho : (processLine st l1).temp_original_text = some X := by
    simp [processLine, h1]
  have hb : (processLine st l1).last_base_tag = some T := by
    simp [processLine, h1]
  have hf : (processLine st l1).temp_full_tag_original = some T := by
    simp [processLine, h1]
  have key := processLine_pair ho hb hf hX hT h2 rfl rfl
  rw [key]
  refine ⟨by simp, by simp, by simp, by simp, by simp⟩

theorem claim_C1_witness :
    parse_subtitle_line ("[Sub1]Hello".toList) =
      some ⟨"Sub1".toList, "Sub1".toList, "Hello".toList, false⟩ ∧
    ((processLine (processLine initState ("[Sub1]Hello".toList)) ("[Sub1ch]Hi".toList)).subtitles =
      (processLine initState ("[Sub1]Hello".toList)).subtitles ++
        [{ id := "Sub1".toList, full_tag_original := "Sub1".toList,
           original_text := "Hello".toList, translated_text := some ("Hi".toList),
           full_tag_translation := some ("Sub1".toList ++ ['c', 'h']) }] ∧
     (processLine (processLine initState ("[Sub1]Hello".toList)) ("[Sub1ch]Hi".toList)).temp_original_text = none ∧
     (processLine (processLine initState ("[Sub1]Hello".toList)) ("[Sub1ch]Hi".toList)).last_base_tag = none ∧
     (processLine (processLine initState ("[Sub1]Hello".toList)) ("[Sub1ch]Hi".toList)).temp_full_tag_original = none ∧
     (processLine (processLine initState ("[Sub1]Hello".toList)) ("[Sub1ch]Hi".toList)).orphans =
       (processLine initState ("[Sub1]Hello".toList)).orphans) :=
  ⟨by decide,
   claim_C1 initState ("[Sub1]Hello".toList) ("[Sub1ch]Hi".toList)
     ("Sub1".toList) ("Hello".toList) ("Hi".toList) (by decide) (by decide)⟩

/-- C2: while the pending slot holds an original, a non-matching line,
a new original line, and end of input each flush exactly one standalone
entry with no translation and clear the slot (the original-line event
then refills it with the new line); a non-matching line with an empty
pending slot emits nothing. -/
theorem claim_C2 :
    (∀ st line T F X, pendingHolds st T F X → parse_subtitle_line line = none →
       processLine st line =
         { subtitles := st.subtitles ++ [standaloneEntry T F X],
           last_base_tag := none, temp_original_text := none,
           temp_full_tag_original := none, orphans := st.orphans,
           lineNo := st.lineNo + 1 }) ∧
    (∀ st line T F X p, pendingHolds st T F X → parse_subtitle_line line = some p →
       p.is_translation = false →
       processLine st line =
         { subtitles := st.subtitles ++ [standaloneEntry T F X],
           last_base_tag := some p.base_tag, temp_original_text := some p.text,
           temp_full_tag_original := some p.full_tag, orphans := st.orphans,
           lineNo := st.lineNo + 1 }) ∧
    (∀ st T F X, pendingHolds st T F X →
       (finalFlush st).subtitles = st.subtitles ++ [standaloneEntry T F X]) ∧
    (∀ st line, st.temp_original_text = none → parse_subtitle_line line = none →
       processLine st line = { st with lineNo := st.lineNo + 1 }) := by
  refine ⟨?_, ?_, ?_, ?_⟩
  · rintro st line T F X ⟨ho, hb, hf, hX, hT, hF⟩ hn
    simp [processLine, hn, ho, hb, hf, truthy_some hX, truthy_some hT, truthy_some hF,
      standaloneEntry]
  · rintro st line T F X p ⟨ho, hb, hf, hX, hT, hF⟩ hp htr
    simp [processLine, hp, htr, ho, hb, hf, truthy_some hX, truthy_some hT, truthy_some hF,
      standaloneEntry]
  · rintro st T F X ⟨ho, hb, hf, hX, hT, hF⟩
    simp [finalFlush, ho, hb, hf, truthy_some hX, truthy_some hT, truthy_some hF,
      standaloneEntry]
  · intro st line ho hn
    simp [processLine, hn, ho, truthyStr]

theorem claim_C2_witness :
    pendingHolds (processLine initState ("[Sub2]Lone".toList))
      ("Sub2".toList) ("Sub2".toList) ("Lone".toList) ∧
    parse_subtitle_line ("   ".toList) = none ∧
    processLine (processLine initState ("[Sub2]Lone".toList)) ("   ".toList) =
      { subtitles := (processLine initState ("[Sub2]Lone".toList)).subtitles ++
          [standaloneEntry ("Sub2".toList) ("Sub2".toList) ("Lone".toList)],
        last_base_tag := none, temp_original_text := none,
        temp_full_tag_original := none,
        orphans := (processLine initState ("[Sub2]Lone".toList)).orphans,
        lineNo := (processLine initState ("[Sub2]Lone".toList)).lineNo + 1 } ∧
    (finalFlush (processLine initState ("[Sub2]Lone".toList))).subtitles =
      (processLine initState ("[Sub2]Lone".toList)).subtitles ++
        [standaloneEntry ("Sub2".toList) ("Sub2".toList) ("Lone".toList)] ∧
    processLine initState ("   ".toList) = { initState with lineNo := initState.lineNo + 1 } :=
  ⟨by unfold pendingHolds; decide, by decide,
   claim_C2.1 (processLine initState ("[Sub2]Lone".toList)) ("   ".toList)
     ("Sub2".toList) ("Sub2".toList) ("Lone".toList) (by unfold pendingHolds; decide) (by decide),
   claim_C2.2.2.1 (processLine initState ("[Sub2]Lone".toList))
     ("Sub2".toList) ("Sub2".toList) ("Lone".toList) (by unfold pendingHolds; decide),
   claim_C2.2.2.2 initState ("   ".toList) (by decide) (by decide)⟩

/-- C3: a translation line arriving while the pending slot is empty or
holds a different base tag emits no entry, appends one orphan report
with the line number and stripped line, and leaves the pending slot
untouched. -/
theorem claim_C3 (st : ParserState) (line : List Char) (p : ParsedLine)
    (hp : parse_subtitle_line line = some p) (htr : p.is_translation = true)
    (horph : st.temp_original_text = none ∨ st.last_base_tag ≠ some p.base_tag) :
    processLine st line =
      { st with orphans := st.orphans ++ [(st.lineNo, pyStrip line)],
                lineNo := st.lineNo + 1 } := by
  rcases horph with h | h
  · simp [processLine, hp, htr, h, truthyStr]
  · have hbe : (st.last_base_tag == some p.base_tag) = false := by
      rw [beq_eq_false_iff_ne]
      exact h
    simp [processLine, hp, htr, hbe]

theorem claim_C3_witness :
    parse_subtitle_line ("[Sub9ch]Orphan".toList) =
      some ⟨"Sub9".toList, "Sub9ch".toList, "Orphan".toList, true⟩ ∧
    processLine initState ("[Sub9ch]Orphan".toList) =
      { initState with
        orphans := initState.orphans ++ [(initState.lineNo, pyStrip ("[Sub9ch]Orphan".toList))],
        lineNo := initState.lineNo + 1 } :=
  ⟨by decide,
   claim_C3 initState ("[Sub9ch]Orphan".toList)
     ⟨"Sub9".toList, "Sub9ch".toList, "Orphan".toList, true⟩
     (by decide) (by decide) (Or.inl (by decide))⟩

theorem endsWithCh_ch : endsWithCh ['c', 'h'] = true := rfl

theorem endsWithCh_false_ne_ch {F : List Char} (h : endsWithCh F = false) :
    F ≠ ['c', 'h'] := by
  intro hF
  rw [hF] at h
  exact absurd h (by decide)

theorem base_of_ch {p : ParsedLine} {line : List Char}
    (hp : parse_subtitle_line line = some p) (hF : p.full_tag = ['c', 'h']) :
    p.is_translation = true ∧ p.base_tag = [] := by
  obtain ⟨-, -, h3, -, h5⟩ := parse_line_shape hp
  have htr : p.is_translation = true := by rw [h3, hF]; rfl
  exact ⟨htr, by rw [h5 htr, hF]; rfl⟩

theorem goodState_step {st : ParserState} (line : List Char) (h : goodState st) :
    goodState (processLine st line) := by
  obtain ⟨h1, h2, h3⟩ := h
  unfold processLine
  cases hp : parse_subtitle_line line with
  | none =>
    dsimp only
    split
    · rename_i hc
      refine ⟨by simp, by simp, ?_⟩
      intro e he
      simp only [List.mem_append, List.mem_singleton] at he
      rcases he with he | he
      · exact h3 e he
      · subst he
        obtain ⟨F, hF, -⟩ := truthy_iff.mp (by
          simp only [Bool.and_eq_true] at hc
          exact hc.2)
        refine ⟨?_, by simp⟩
        simp only [hF, Option.getD_some]
        exact endsWithCh_false_ne_ch (h2 F hF)
    · exact ⟨h1, h2, h3⟩
  | some p =>
    dsimp only
    by_cases htr : p.is_translation = true
    · rw [if_pos htr]
      split
      · rename_i hc
        simp only [Bool.and_eq_true, beq_iff_eq] at hc
        obtain ⟨⟨-, hbeq⟩, htf⟩ := hc
        refine ⟨by simp, by simp, ?_⟩
        intro e he
        simp only [List.mem_append, List.mem_singleton] at he
        rcases he with he | he
        · exact h3 e he
        · subst he
          obtain ⟨F, hF, -⟩ := truthy_iff.mp htf
          refine ⟨?_, ?_⟩
          · simp only [hF, Option.getD_some]
            exact endsWithCh_false_ne_ch (h2 F hF)
          · intro G hG hGch
            simp only [Option.some.injEq] at hG
            subst hG
            have := base_of_ch hp hGch
            rw [this.2] at hbeq
            exact h1 (by rw [hbeq])
      · exact ⟨by simpa using h1, by simpa using h2, by simpa using h3⟩
    · rw [if_neg htr]
      have htr' : p.is_translation = false := by
        cases hpt : p.is_translation
        · rfl
        · exact absurd hpt htr
      obtain ⟨-, hfne, -, hbase, -⟩ := parse_line_shape hp
      refine ⟨?_, ?_, ?_⟩
      · intro hcon
        have hnil : p.base_tag = [] := by simpa using hcon
        rw [hbase htr'] at hnil
        exact hfne hnil
      · intro F hF
        have hfeq : p.full_tag = F := by simpa using hF
        subst hfeq
        rw [← parse_line_shape hp |>.2.2.1, htr']
      · intro e he
        dsimp only at he
        split at he
        · rename_i hc
          simp only [List.mem_append, List.mem_singleton] at he
          rcases he with he | he
          · exact h3 e he
          · subst he
            simp only [Bool.and_eq_true] at hc
            obtain ⟨F, hF, -⟩ := truthy_iff.mp hc.2
            refine ⟨?_, by simp⟩
            simp only [hF, Option.getD_some]
            exact endsWithCh_false_ne_ch (h2 F hF)
        · exact h3 e he

theorem goodState_init : goodState initState := by
  refine ⟨by simp [initState], ?_, ?_⟩
  · intro F hF
    simp [initState] at hF
  · intro e he
    simp [initState] at he

theorem goodState_foldl (ls : List (List Char)) :
    ∀ st : ParserState, goodState st → goodState (ls.foldl processLine st) := by
  induction ls with
  | nil => intro st h; exact h
  | cons l rest ih =>
    intro st h
    exact ih (processLine st l) (goodState_step l h)

theorem goodState_finalFlush {st : ParserState} (h : goodState st) :
    ∀ e ∈ (finalFlush st).subtitles,
      e.full_tag_original ≠ ['c', 'h'] ∧
      ∀ G, e.full_tag_translation = some G → G ≠ ['c', 'h'] := by
  obtain ⟨h1, h2, h3⟩ := h
  intro e he
  unfold finalFlush at he
  split at he
  · rename_i hc
    simp only [List.mem_append, List.mem_singleton] at he
    rcases he with he | he
    · exact h3 e he
    · subst he
      simp only [Bool.and_eq_true] at hc
      obtain ⟨F, hF, -⟩ := truthy_iff.mp hc.2
      refine ⟨?_, by simp⟩
      simp only [hF, Option.getD_some]
      exact endsWithCh_false_ne_ch (h2 F hF)
  · exact h3 e he

/-- C10: a line whose full tag is exactly "ch" parses as a translation
with the empty base tag; since a pending original's base tag is always
its nonempty full tag, such a line never pairs: at every reachable
parser state it is reported as an orphan and discarded, and no emitted
entry of any parse carries the bare tag "ch" in either tag field. -/
theorem claim_C10 :
    (∀ line p, parse_subtitle_line line = some p → p.full_tag = ['c', 'h'] →
       p.is_translation = true ∧ p.base_tag = []) ∧
    (∀ st line p, goodState st → parse_subtitle_line line = some p →
       p.full_tag = ['c', 'h'] →
       processLine st line =
         { st with orphans := st.orphans ++ [(st.lineNo, pyStrip line)],
                   lineNo := st.lineNo + 1 }) ∧
    (∀ ls, goodState (runLines ls)) ∧
    (∀ ls, ∀ e ∈ parse_subtitle_file ls,
       e.full_tag_original ≠ ['c', 'h'] ∧ e.full_tag_translation ≠ some ['c', 'h']) := by
  have hrun : ∀ ls, goodState (runLines ls) := fun ls =>
    goodState_foldl ls initState goodState_init
  refine ⟨?_, ?_, hrun, ?_⟩
  · intro line p hp hF
    exact base_of_ch hp hF
  · intro st line p hgood hp hF
    obtain ⟨htr, hbase⟩ := base_of_ch hp hF
    have hbeq : (st.last_base_tag == some p.base_tag) = false := by
      rw [beq_eq_false_iff_ne, hbase]
      exact hgood.1
    simp [processLine, hp, htr, hbeq]
  · intro ls e he
    have := goodState_finalFlush (hrun ls) e he
    refine ⟨this.1, ?_⟩
    intro hG
    exact this.2 ['c', 'h'] hG rfl

theorem claim_C10_witness :
    parse_subtitle_line ("[ch]Hi".toList) =
      some ⟨[], ['c', 'h'], ['H', 'i'], true⟩ ∧
    ((⟨[], ['c', 'h'], ['H', 'i'], true⟩ : ParsedLine).is_translation = true ∧
     (⟨[], ['c', 'h'], ['H', 'i'], true⟩ : ParsedLine).base_tag = []) ∧
    processLine initState ("[ch]Hi".toList) =
      { initState with
        orphans := initState.orphans ++ [(initState.lineNo, pyStrip ("[ch]Hi".toList))],
        lineNo := initState.lineNo + 1 } :=
  ⟨by decide,
   claim_C10.1 ("[ch]Hi".toList) ⟨[], ['c', 'h'], ['H', 'i'], true⟩ (by decide) rfl,
   claim_C10.2.1 initState ("[ch]Hi".toList) ⟨[], ['c', 'h'], ['H', 'i'], true⟩
     (claim_C10.2.2.1 []) (by decide) rfl⟩

theorem pyInt_intCast (n : Int) : pyInt ((n : Int) : ℚ) = n := by
  unfold pyInt
  split
  · exact Int.floor_intCast n
  · exact Int.ceil_intCast n

theorem abs_pyInt_sub_lt (q : ℚ) : |(pyInt q : ℚ) - q| < 1 := by
  unfold pyInt
  split
  · rw [abs_lt]
    constructor <;> linarith [Int.floor_le q, Int.lt_floor_add_one q]
  · rw [abs_lt]
    constructor <;> linarith [Int.le_ceil q, Int.ceil_lt_add_one q]

/-- C4: vertical placement is exactly canvas height minus the bottom
anchor minus the ink height for both roles under every alignment mode,
and the horizontal position is the anchor for left, the anchor minus
half the ink width for center (within one unit after int()), and the
anchor minus the ink width for right. -/
theorem claim_C4 (H : Int) (align : String) (ax ay w h : Int) :
    (origDrawPos H align ax ay w h).2 = H - ay - h ∧
    (transDrawPos H align ax ay w h).2 = H - ay - h ∧
    (align = "left" → (origDrawPos H align ax ay w h).1 = ax ∧
       (transDrawPos H align ax ay w h).1 = ax) ∧
    (align = "center" →
       |((origDrawPos H align ax ay w h).1 : ℚ) - ((ax : ℚ) - (w : ℚ) / 2)| ≤ 1 ∧
       |((transDrawPos H align ax ay w h).1 : ℚ) - ((ax : ℚ) - (w : ℚ) / 2)| ≤ 1) ∧
    (align = "right" → (origDrawPos H align ax ay w h).1 = ax - w ∧
       (transDrawPos H align ax ay w h).1 = ax - w) := by
  have hy : pyInt ((computePilY H ay h : Int) : ℚ) = H - ay - h := by
    rw [pyInt_intCast]
    rfl
  refine ⟨hy, hy, ?_, ?_, ?_⟩
  · intro ha
    have : computePilX align ax w = ((ax : Int) : ℚ) := by
      simp [computePilX, ha]
    constructor <;> simp [origDrawPos, transDrawPos, this, pyInt_intCast]
  · intro ha
    have hx : computePilX align ax w = (ax : ℚ) - (w : ℚ) / 2 := by
      simp [computePilX, ha]
    constructor <;>
      · simp only [origDrawPos, transDrawPos, hx]
        exact le_of_lt (abs_pyInt_sub_lt ((ax : ℚ) - (w : ℚ) / 2))
  · intro ha
    have hx : computePilX align ax w = ((ax - w : Int) : ℚ) := by
      simp [computePilX, ha]
    constructor <;>
      · show pyInt (computePilX align ax w) = ax - w
        rw [hx, pyInt_intCast]

theorem claim_C4_witness :
    (origDrawPos 720 ("center") 10 10 50 20).2 = 720 - 10 - 20 ∧
    |((origDrawPos 720 ("center") 10 10 50 20).1 : ℚ) - ((10 : ℚ) - (50 : ℚ) / 2)| ≤ 1 ∧
    (origDrawPos 720 ("left") 10 10 50 20).1 = 10 ∧
    (origDrawPos 720 ("right") 10 10 50 20).1 = 10 - 50 :=
  ⟨(claim_C4 720 ("center") 10 10 50 20).1,
   ((claim_C4 720 ("center") 10 10 50 20).2.2.2.1 rfl).1,
   ((claim_C4 720 ("left") 10 10 50 20).2.2.1 rfl).1,
   ((claim_C4 720 ("right") 10 10 50 20).2.2.2.2 rfl).1⟩

theorem mem_pyRange {a b x : Int} : x ∈ pyRange a b ↔ a ≤ x ∧ x < b := by
  unfold pyRange
  constructor
  · intro hx
    obtain ⟨k, hk, hkx⟩ := List.mem_map.mp hx
    have hklt := List.mem_range.mp hk
    omega
  · intro hx
    exact List.mem_map.mpr ⟨(x - a).toNat, List.mem_range.mpr (by omega), by omega⟩

theorem mem_outlineOffsets {w dx dy : Int} :
    (dx, dy) ∈ outlineOffsets w ↔
      (-w ≤ dx ∧ dx < w + 1) ∧ (-w ≤ dy ∧ dy < w + 1) ∧
        (|dx| = w ∨ |dy| = w ∨
          (|dx| < w ∧ |dy| < w ∧ (w - 1) * (w - 1) ≤ dx * dx + dy * dy)) := by
  unfold outlineOffsets
  simp only [List.mem_flatMap, List.mem_filterMap, mem_pyRange]
  constructor
  · rintro ⟨dx', hdx, dy', hdy, hcond⟩
    split at hcond
    · rename_i hc
      simp only [Option.some.injEq, Prod.mk.injEq] at hcond
      obtain ⟨rfl, rfl⟩ := hcond
      exact ⟨hdx, hdy, hc⟩
    · exact absurd hcond (by simp)
  · rintro ⟨hdx, hdy, hc⟩
    exact ⟨dx, hdx, dy, hdy, by rw [if_pos hc]⟩

/-- C5: with outline enabled and width W > 0, the outline layer stamps
the glyph run in the (alpha-defaulted) outline color at exactly the
integer offsets inside the square of radius W that lie on its outer
ring or satisfy the inner ring-thickness test, and with outline
disabled or W <= 0 it stamps nothing. -/
theorem claim_C5 :
    (∀ w dx dy : Int, 0 < w →
       ((dx, dy) ∈ outlineOffsets w ↔
         |dx| ≤ w ∧ |dy| ≤ w ∧
           (|dx| = w ∨ |dy| = w ∨
             (|dx| < w ∧ |dy| < w ∧ (w - 1) ^ 2 ≤ dx ^ 2 + dy ^ 2)))) ∧
    (∀ pos : Int × Int, ∀ s : List Char, ∀ e : Effects,
       e.outline_on = true → 0 < e.outline_width →
       outlineLayerOps pos s e =
         (outlineOffsets e.outline_width).map (fun d =>
           DrawOp.text (pos.1 + d.1, pos.2 + d.2) s (defaultAlpha e.outline_color 255))) ∧
    (∀ pos : Int × Int, ∀ s : List Char, ∀ e : Effects,
       e.outline_on = false ∨ e.outline_width ≤ 0 →
       outlineLayerOps pos s e = []) := by
  refine ⟨?_, ?_, ?_⟩
  · intro w dx dy hw
    rw [mem_outlineOffsets]
    simp only [pow_two]
    constructor
    · rintro ⟨hdx, hdy, hc⟩
      exact ⟨by rw [abs_le]; omega, by rw [abs_le]; omega, hc⟩
    · rintro ⟨hdx, hdy, hc⟩
      rw [abs_le] at hdx hdy
      exact ⟨by omega, by omega, hc⟩
  · intro pos s e hon hw
    unfold outlineLayerOps
    rw [if_pos ⟨hon, hw⟩]
  · intro pos s e hoff
    unfold outlineLayerOps
    rw [if_neg]
    rintro ⟨h1, h2⟩
    rcases hoff with h | h
    · rw [h1] at h
      cases h
    · omega

theorem claim_C5_witness :
    (((1 : Int), (2 : Int)) ∈ outlineOffsets 2 ↔
      |(1 : Int)| ≤ 2 ∧ |(2 : Int)| ≤ 2 ∧
        (|(1 : Int)| = 2 ∨ |(2 : Int)| = 2 ∨
          (|(1 : Int)| < 2 ∧ |(2 : Int)| < 2 ∧
            ((2 : Int) - 1) ^ 2 ≤ (1 : Int) ^ 2 + (2 : Int) ^ 2))) ∧
    outlineLayerOps (0, 0) [] ({ outline_on := true, outline_width := 1, outline_color := [0, 0, 0, 255], shadow_on := false, shadow_offset_x := 0, shadow_offset_y := 0, shadow_color := [0, 0, 0, 128], gradient_on := false, gradient_color_start := [0, 0, 0, 255], gradient_color_end := [0, 0, 0, 255] } : Effects) =
      (outlineOffsets 1).map (fun d => DrawOp.text (0 + d.1, 0 + d.2) [] [0, 0, 0, 255]) ∧
    outlineLayerOps (0, 0) [] ({ outline_on := false, outline_width := 1, outline_color := [0, 0, 0, 255], shadow_on := false, shadow_offset_x := 0, shadow_offset_y := 0, shadow_color := [0, 0, 0, 128], gradient_on := false, gradient_color_start := [0, 0, 0, 255], gradient_color_end := [0, 0, 0, 255] } : Effects) = [] :=
  ⟨claim_C5.1 2 1 2 (by decide),
   claim_C5.2.1 (0, 0) [] _ rfl (by decide),
   claim_C5.2.2 (0, 0) [] _ (Or.inl rfl)⟩

theorem draw_ops_text_only {pos : Int × Int} {s : List Char} {bb : BBox}
    {fill : List Int} {e : Effects}
    (hink : bb.right - bb.left ≤ 0 ∨ bb.bottom - bb.top ≤ 0) :
    ∀ op ∈ draw_text_with_effects pos s bb fill e, ∃ q c, op = DrawOp.text q s c := by
  intro op hop
  unfold draw_text_with_effects at hop
  simp only [List.mem_append] at hop
  rcases hop with (hop | hop) | hop
  · unfold outlineLayerOps at hop
    split at hop
    · simp only [List.mem_map] at hop
      obtain ⟨d, -, rfl⟩ := hop
      exact ⟨_, _, rfl⟩
    · cases hop
  · unfold shadowLayerOps at hop
    split at hop
    · split at hop
      · simp only [List.mem_singleton] at hop
        subst hop
        exact ⟨_, _, rfl⟩
      · cases hop
    · cases hop
  · unfold fillLayerOps at hop
    split at hop
    · dsimp only at hop
      split at hop
      · cases hop
      · rename_i hne
        exact absurd hink hne
    · simp only [List.mem_singleton] at hop
      subst hop
      exact ⟨_, _, rfl⟩

/-- C6: when the measured ink box has nonpositive width or height, no
operation of draw_text_with_effects touches any canvas pixel, and in
particular the gradient path issues no paste at all; the call is not an
error. -/
theorem claim_C6 (pos : Int × Int) (s : List Char) (bb : BBox) (fill : List Int)
    (e : Effects) (hink : bb.right - bb.left ≤ 0 ∨ bb.bottom - bb.top ≤ 0) :
    (∀ op ∈ draw_text_with_effects pos s bb fill e, ∀ q, ¬ opCovers bb op q) ∧
    (∀ op ∈ draw_text_with_effects pos s bb fill e, ∀ box rows,
       op ≠ DrawOp.pasteGradient box rows) := by
  constructor
  · intro op hop q hcov
    obtain ⟨qq, c, rfl⟩ := draw_ops_text_only hink op hop
    obtain ⟨h1, h2, h3, h4⟩ := hcov
    omega
  · intro op hop box rows heq
    obtain ⟨qq, c, rfl⟩ := draw_ops_text_only hink op hop
    cases heq

theorem claim_C6_witness :
    (((0 : Int) - 0 ≤ 0 ∨ (0 : Int) - 0 ≤ 0) ∧
     (∀ op ∈ draw_text_with_effects (5, 5) [] ⟨0, 0, 0, 0⟩ [255, 0, 0]
         ({ outline_on := true, outline_width := 2, outline_color := [0, 0, 0], shadow_on := true, shadow_offset_x := 3, shadow_offset_y := 3, shadow_color := [0, 0, 0], gradient_on := true, gradient_color_start := [255, 0, 0], gradient_color_end := [0, 0, 255] } : Effects),
        ∀ q, ¬ opCovers ⟨0, 0, 0, 0⟩ op q) ∧
     (∀ op ∈ draw_text_with_effects (5, 5) [] ⟨0, 0, 0, 0⟩ [255, 0, 0]
         ({ outline_on := true, outline_width := 2, outline_color := [0, 0, 0], shadow_on := true, shadow_offset_x := 3, shadow_offset_y := 3, shadow_color := [0, 0, 0], gradient_on := true, gradient_color_start := [255, 0, 0], gradient_color_end := [0, 0, 255] } : Effects),
        ∀ box rows, op ≠ DrawOp.pasteGradient box rows)) :=
  ⟨by decide,
   claim_C6 (5, 5) [] ⟨0, 0, 0, 0⟩ [255, 0, 0] _ (by decide)⟩

theorem pilEffColor_append_one (c : List Int) (x : Int) (hc : c.length = 3) :
    pilEffColor (c ++ [x]) = c ++ [x] := by
  unfold pilEffColor
  rw [if_neg]
  simp [hc]

theorem pilEffColor_len4 (c : List Int) (hc : c.length = 4) : pilEffColor c = c := by
  unfold pilEffColor
  rw [if_neg]
  omega

/-- C8: a 3-channel color is composited fully opaque: the compositor
appends alpha 255 to a 3-channel outline color and alpha 128 to a
3-channel shadow color before stamping, and a 3-channel solid fill
color reaches the canvas as opaque through the back end's color
handling; 4-channel colors are used exactly as given. -/
theorem claim_C8 (pos : Int × Int) (s : List Char) (bb : BBox) (fill : List Int)
    (e : Effects) :
    (e.outline_color.length = 3 →
       ∀ op ∈ outlineLayerOps pos s e, opStampColor op = e.outline_color ++ [255]) ∧
    (e.outline_color.length = 4 →
       ∀ op ∈ outlineLayerOps pos s e, opStampColor op = e.outline_color) ∧
    (e.shadow_color.length = 3 →
       ∀ op ∈ shadowLayerOps pos s e, opStampColor op = e.shadow_color ++ [128]) ∧
    (e.shadow_color.length = 4 →
       ∀ op ∈ shadowLayerOps pos s e, opStampColor op = e.shadow_color) ∧
    (e.gradient_on = false → fill.length = 3 →
       ∀ op ∈ fillLayerOps pos s bb fill e, opStampColor op = fill ++ [255]) ∧
    (e.gradient_on = false → fill.length = 4 →
       ∀ op ∈ fillLayerOps pos s bb fill e, opStampColor op = fill) := by
  refine ⟨?_, ?_, ?_, ?_, ?_, ?_⟩
  · intro hc op hop
    unfold outlineLayerOps at hop
    split at hop
    · simp only [List.mem_map] at hop
      obtain ⟨d, -, rfl⟩ := hop
      show pilEffColor (defaultAlpha e.outline_color 255) = _
      rw [defaultAlpha, if_pos hc, pilEffColor_append_one _ _ hc]
    · cases hop
  · intro hc op hop
    unfold outlineLayerOps at hop
    split at hop
    · simp only [List.mem_map] at hop
      obtain ⟨d, -, rfl⟩ := hop
      show pilEffColor (defaultAlpha e.outline_color 255) = _
      rw [defaultAlpha, if_neg (by omega), pilEffColor_len4 _ hc]
    · cases hop
  · intro hc op hop
    unfold shadowLayerOps at hop
    split at hop
    · split at hop
      · simp only [List.mem_singleton] at hop
        subst hop
        show pilEffColor (defaultAlpha e.shadow_color 128) = _
        rw [defaultAlpha, if_pos hc, pilEffColor_append_one _ _ hc]
      · cases hop
    · cases hop
  · intro hc op hop
    unfold shadowLayerOps at hop
    split at hop
    · split at hop
      · simp only [List.mem_singleton] at hop
        subst hop
        show pilEffColor (defaultAlpha e.shadow_color 128) = _
        rw [defaultAlpha, if_neg (by omega), pilEffColor_len4 _ hc]
      · cases hop
    · cases hop
  · intro hg hc op hop
    unfold fillLayerOps at hop
    rw [if_neg (by rw [hg]; exact Bool.false_ne_true)] at hop
    simp only [List.mem_singleton] at hop
    subst hop
    show pilEffColor fill = _
    rw [pilEffColor, if_pos hc]
  · intro hg hc op hop
    unfold fillLayerOps at hop
    rw [if_neg (by rw [hg]; exact Bool.false_ne_true)] at hop
    simp only [List.mem_singleton] at hop
    subst hop
    show pilEffColor fill = _
    rw [pilEffColor, if_neg (by omega)]

theorem claim_C8_witness :
    ([(10 : Int), 20, 30] : List Int).length = 3 ∧
    (∀ op ∈ outlineLayerOps (0, 0) []
        ({ outline_on := true, outline_width := 1, outline_color := [10, 20, 30], shadow_on := true, shadow_offset_x := 1, shadow_offset_y := 1, shadow_color := [1, 2, 3], gradient_on := false, gradient_color_start := [0, 0, 0], gradient_color_end := [0, 0, 0] } : Effects),
       opStampColor op = [10, 20, 30] ++ [255]) ∧
    (∀ op ∈ shadowLayerOps (0, 0) []
        ({ outline_on := true, outline_width := 1, outline_color := [10, 20, 30], shadow_on := true, shadow_offset_x := 1, shadow_offset_y := 1, shadow_color := [1, 2, 3], gradient_on := false, gradient_color_start := [0, 0, 0], gradient_color_end := [0, 0, 0] } : Effects),
       opStampColor op = [1, 2, 3] ++ [128]) ∧
    (∀ op ∈ fillLayerOps (0, 0) [] ⟨0, 0, 4, 4⟩ [7, 8, 9]
        ({ outline_on := true, outline_width := 1, outline_color := [10, 20, 30], shadow_on := true, shadow_offset_x := 1, shadow_offset_y := 1, shadow_color := [1, 2, 3], gradient_on := false, gradient_color_start := [0, 0, 0], gradient_color_end := [0, 0, 0] } : Effects),
       opStampColor op = [7, 8, 9] ++ [255]) :=
  ⟨rfl,
   (claim_C8 (0, 0) [] ⟨0, 0, 4, 4⟩ [7, 8, 9] _).1 rfl,
   (claim_C8 (0, 0) [] ⟨0, 0, 4, 4⟩ [7, 8, 9] _).2.2.1 rfl,
   (claim_C8 (0, 0) [] ⟨0, 0, 4, 4⟩ [7, 8, 9] _).2.2.2.2.1 rfl rfl⟩

/-- C7: scanline i of the gradient image is the componentwise
truncated linear interpolation of the start and end RGBA colors at
ratio i / max(1, H - 1); the denominator is positive for every height,
each component is within one unit of the exact interpolation, and for a
one-pixel-tall ink box the single row is exactly the start color. -/
theorem claim_C7 (r1 g1 b1 a1 r2 g2 b2 a2 th i : Int)
    (hth : 1 ≤ th) (hi0 : 0 ≤ i) (hith : i < th) :
    (0 : ℚ) < ((max 1 (th - 1) : Int) : ℚ) ∧
    (gradientRows [r1, g1, b1, a1] [r2, g2, b2, a2] th).get? i.toNat =
      some (gradientRowColor [r1, g1, b1, a1] [r2, g2, b2, a2] th i) ∧
    gradientRowColor [r1, g1, b1, a1] [r2, g2, b2, a2] th i =
      [pyInt (lerpComp r1 r2 ((i : ℚ) / ((max 1 (th - 1) : Int) : ℚ))),
       pyInt (lerpComp g1 g2 ((i : ℚ) / ((max 1 (th - 1) : Int) : ℚ))),
       pyInt (lerpComp b1 b2 ((i : ℚ) / ((max 1 (th - 1) : Int) : ℚ))),
       pyInt (lerpComp a1 a2 ((i : ℚ) / ((max 1 (th - 1) : Int) : ℚ)))] ∧
    |(pyInt (lerpComp r1 r2 ((i : ℚ) / ((max 1 (th - 1) : Int) : ℚ))) : ℚ) -
        lerpComp r1 r2 ((i : ℚ) / ((max 1 (th - 1) : Int) : ℚ))| < 1 ∧
    (th = 1 → gradientRowColor [r1, g1, b1, a1] [r2, g2, b2, a2] th i = [r1, g1, b1, a1]) := by
  refine ⟨?_, ?_, rfl, abs_pyInt_sub_lt _, ?_⟩
  · have h1 : (1 : Int) ≤ max 1 (th - 1) := le_max_left 1 (th - 1)
    exact_mod_cast lt_of_lt_of_le Int.zero_lt_one h1
  · unfold gradientRows pyRange
    rw [List.get?_map, List.get?_map, List.get?_range (by omega)]
    have hcast : (0 : Int) + (i.toNat : Int) = i := by omega
    show some (gradientRowColor [r1, g1, b1, a1] [r2, g2, b2, a2] th
      ((0 : Int) + (i.toNat : Int))) = _
    rw [hcast]
  · intro h1
    subst h1
    have hi : i = 0 := by omega
    subst hi
    have ht : ((0 : Int) : ℚ) / ((max 1 ((1 : Int) - 1) : Int) : ℚ) = 0 := by norm_num
    simp only [gradientRowColor, ht, lerpComp, Int.cast_zero, sub_zero, mul_one, mul_zero,
      add_zero]
    simp [pyInt_intCast]

theorem claim_C7_witness :
    ((1 : Int) ≤ 1 ∧ (0 : Int) ≤ 0 ∧ (0 : Int) < 1) ∧
    ((0 : ℚ) < ((max 1 ((1 : Int) - 1) : Int) : ℚ) ∧
     (gradientRows [255, 105, 180, 255] [255, 255, 255, 255] 1).get? (0 : Int).toNat =
       some (gradientRowColor [255, 105, 180, 255] [255, 255, 255, 255] 1 0) ∧
     gradientRowColor [255, 105, 180, 255] [255, 255, 255, 255] 1 0 =
       [pyInt (lerpComp 255 255 (((0 : Int) : ℚ) / ((max 1 ((1 : Int) - 1) : Int) : ℚ))),
        pyInt (lerpComp 105 255 (((0 : Int) : ℚ) / ((max 1 ((1 : Int) - 1) : Int) : ℚ))),
        pyInt (lerpComp 180 255 (((0 : Int) : ℚ) / ((max 1 ((1 : Int) - 1) : Int) : ℚ))),
        pyInt (lerpComp 255 255 (((0 : Int) : ℚ) / ((max 1 ((1 : Int) - 1) : Int) : ℚ)))] ∧
     |(pyInt (lerpComp 255 255 (((0 : Int) : ℚ) / ((max 1 ((1 : Int) - 1) : Int) : ℚ))) : ℚ) -
         lerpComp 255 255 (((0 : Int) : ℚ) / ((max 1 ((1 : Int) - 1) : Int) : ℚ))| < 1 ∧
     ((1 : Int) = 1 →
        gradientRowColor [255, 105, 180, 255] [255, 255, 255, 255] 1 0 =
          [255, 105, 180, 255])) :=
  ⟨⟨le_refl 1, le_refl 0, Int.zero_lt_one⟩,
   claim_C7 255 105 180 255 255 255 255 255 1 0 (by decide) (by decide) (by decide)⟩

/-- C9 (code bug): the settings merge of process_subtitles is not
mutation-free.  With a custom settings dict that carries an
effects_original override, the deep-merge step writes through the
shallow copy's shared reference into the nested dict of
DEFAULT_SETTINGS (outline_width 2 becomes 5 at heap address 0, still
referenced by DEFAULT_SETTINGS) and deletes the key from the
caller-supplied dict at address 3. -/
theorem claim_C9 :
    dictGet (storeGet defaultStore 0) ("outline_width") = some (PyVal.vInt 2) ∧
    dictGet (storeGet defaultStore 2) ("effects_original") = some (PyVal.vRef 0) ∧
    dictGet
      (storeGet
        (processSubtitlesSettings
          (defaultStore ++
            [[("effects_original", PyVal.vRef 4)], [("outline_width", PyVal.vInt 5)]])
          2 (some 3)).1 0) ("outline_width") = some (PyVal.vInt 5) ∧
    dictGet
      (storeGet
        (processSubtitlesSettings
          (defaultStore ++
            [[("effects_original", PyVal.vRef 4)], [("outline_width", PyVal.vInt 5)]])
          2 (some 3)).1 2) ("effects_original") = some (PyVal.vRef 0) ∧
    dictGet
      (storeGet
        (processSubtitlesSettings
          (defaultStore ++
            [[("effects_original", PyVal.vRef 4)], [("outline_width", PyVal.vInt 5)]])
          2 (some 3)).1 3) ("effects_original") = none := by
  decide
